import Mathlib

/-!
Shallow embedding of the `fs-ctx` library core (repository `imba97/fs-ctx`):
the file-based mutual-exclusion lock (`src/core/file-lock.ts`) and the
reactive file context synchronization loop (`ReactiveFileContext`,
`src/utils/reactivity.ts`).

Machine integers do not occur; all times are modelled as natural numbers of
milliseconds.  Filesystem effects are modelled by explicit state passing:
the lock marker is an `Option Nat` (present with its mtime, or absent), the
document file is a `FileState`, and JavaScript objects are association lists
with string keys.
-/

namespace FsCtx

/-! ## FileLock (`src/core/file-lock.ts`)

`acquire` loops while `Date.now() - start < timeout`; each iteration tries
an exclusive create (`writeFile` with flag `wx`, which fails iff the marker
exists), and on `EEXIST` stats the marker: if its age exceeds
`2 * timeout` it unlinks it and `continue`s (no sleep); if the stat or
unlink throws (marker vanished) it also `continue`s; otherwise it sleeps
10 ms.  Time advances only at the sleeps in this embedding. -/

/-- Result of a terminated `acquire` run: the returned boolean, the final
marker state, the number of exclusive-create attempts performed, and the
clock value at the end of the run. -/
structure AcquireRun where
  ok : Bool
  marker : Option Nat
  attempts : Nat
  now : Nat
  deriving DecidableEq, Repr

/-- The `acquire` retry loop of `FileLock.acquire`
(`src/core/file-lock.ts` lines 11–38), run without interference from other
processes: `timeout` and `start` are fixed, the state is the current clock
`now`, the marker (with mtime) and the attempt counter.  A successful
exclusive create writes the marker with mtime `now` and returns `true`;
a marker with age `now - mtime > 2 * timeout` is unlinked and the loop
continues without sleeping; otherwise the loop sleeps 10 ms.  `fuel`
bounds recursion depth only; every run of interest terminates well within
the supplied fuel. -/
def acquireGo (timeout start : Nat) : Nat → Nat → Option Nat → Nat → AcquireRun
  | 0, now, marker, attempts => ⟨false, marker, attempts, now⟩
  | fuel + 1, now, marker, attempts =>
    if now - start < timeout then
      match marker with
      | none => ⟨true, some now, attempts + 1, now⟩
      | some m =>
        if now - m > 2 * timeout then
          acquireGo timeout start fuel now none (attempts + 1)
        else
          acquireGo timeout start fuel (now + 10) (some m) (attempts + 1)
    else
      ⟨false, marker, attempts, now⟩

/-- What the inner `try` block observes inside one failed-create
iteration: the marker is found with mtime `m` and stays until the unlink
(`found`); the marker is found with mtime `m` but disappears before the
unlink, which then throws (`foundVanished`); or the marker already
vanished before the stat, which throws (`vanished`). -/
inductive StatView where
  | found (m : Nat)
  | foundVanished (m : Nat)
  | vanished
  deriving DecidableEq, Repr

/-- Outcome of one iteration of the `acquire` loop. -/
inductive IterOutcome where
  | success
  | retryNow (deleteMarker : Bool)
  | sleep
  | timedOut
  deriving DecidableEq, Repr

/-- One iteration of the `acquire` loop with the filesystem observations as
parameters, so that interference between the exclusive create and the stat
can be expressed: `markerAtCreate` is whether the exclusive create failed
with `EEXIST`, `view` is what the subsequent stat saw.  `retryNow` is the
`continue` statement (back to the loop head without sleeping), `sleep` the
10 ms wait. -/
def acquireIter (timeout start now : Nat) (markerAtCreate : Bool)
    (view : StatView) : IterOutcome :=
  if now - start < timeout then
    if markerAtCreate then
      match view with
      | .vanished => .retryNow false
      | .foundVanished m =>
        if now - m > 2 * timeout then .retryNow false else .sleep
      | .found m => if now - m > 2 * timeout then .retryNow true else .sleep
    else
      .success
  else
    .timedOut

/-! ### Cross-process marker semantics

The exclusive create (`wx` flag) and unlink are the only operations any
contender performs on the marker; their effect on the shared marker is
atomic.  A concurrent execution of N contenders is an arbitrary
interleaving of these atomic events. -/

/-- An atomic event on the shared lock marker: a contender's exclusive
create attempt, or an unlink (a `release`, or a stale-marker deletion). -/
inductive LockEvent where
  | tryCreate (pid : Nat)
  | unlink (pid : Nat)
  deriving DecidableEq, Repr

/-- Effect of one atomic event on the marker: an exclusive create succeeds
iff the marker is absent (then the marker records the creator), and an
unlink removes the marker. -/
def markerStep : Option Nat → LockEvent → Option Nat
  | none, .tryCreate p => some p
  | some q, .tryCreate _ => some q
  | _, .unlink _ => none

/-- Marker state after a sequence of atomic events. -/
def markerRun (s : Option Nat) (es : List LockEvent) : Option Nat :=
  es.foldl markerStep s

/-- Marker state just before the event at index `n`. -/
def markerAt (s : Option Nat) (es : List LockEvent) (n : Nat) : Option Nat :=
  markerRun s (es.take n)

/-- The event at index `n` is a successful exclusive create: it is a
`tryCreate` and the marker is absent when it executes. -/
def createSucceedsAt (s : Option Nat) (es : List LockEvent) (n : Nat) : Prop :=
  (∃ p, es.get? n = some (.tryCreate p)) ∧ markerAt s es n = none

/-! ## JavaScript objects and the document file

A JSON-representable value: a primitive (abstracted as a natural number) or
a nested object.  A JavaScript object is an association list of string keys
and values; JS objects never hold two properties with the same key, which
theorems assume through `nodupKeys` where it matters. -/

/-- A JSON value: primitive or nested object. -/
inductive JVal where
  | prim (n : Nat)
  | obj (fields : List (String × JVal))

/-- A JavaScript object: ordered association list of properties. -/
abbrev Obj := List (String × JVal)

/-- Property read (`o[k]`). -/
def objGet (o : Obj) (k : String) : Option JVal :=
  (o.find? (fun p => p.1 == k)).map (·.2)

/-- Property write (`o[k] = v`): replaces the value of an existing property
in place, otherwise appends the property. -/
def objSet (o : Obj) (k : String) (v : JVal) : Obj :=
  if o.any (fun p => p.1 == k) then
    o.map (fun p => if p.1 == k then (k, v) else p)
  else
    o ++ [(k, v)]

/-- Property deletion (`delete o[k]`). -/
def objDel (o : Obj) (k : String) : Obj :=
  o.filter (fun p => p.1 ≠ k)

/-- `Object.assign(target, source)`: set every property of `source` on
`target`, in order. -/
def objAssign (target source : Obj) : Obj :=
  source.foldl (fun acc p => objSet acc p.1 p.2) target

/-- `Object.keys(o)`. -/
def objKeys (o : Obj) : List String :=
  o.map Prod.fst

/-- The keys of the object are pairwise distinct (true of every JS object). -/
def nodupKeys (o : Obj) : Prop :=
  (o.map Prod.fst).Nodup

/-- The state of the document file on disk: absent, existing but empty
(zero bytes), existing with malformed JSON, or a parsed JSON object. -/
inductive FileState where
  | missing
  | empty
  | corrupt
  | content (o : Obj)

/-- `fs.ensureFileSync` / `fs.ensureFile`: creates an empty file when the
path is absent, otherwise leaves the file alone. -/
def ensureFile : FileState → FileState
  | .missing => .empty
  | f => f

/-- `ReactiveFileContext.loadFile` (`src/unnamed/part_002` lines 104–115):
returns `{}` when the file is absent, and catches every `readJSONSync`
error — an empty or malformed file also yields `{}`; only a parsed object
is returned as-is.  This function never throws. -/
def loadFile : FileState → Obj
  | .content o => o
  | _ => []

/-! ## ReactiveFileContext (`src/unnamed/part_002`)

Instance state and the synchronization loop.  The reactivity layer
(`src/utils/reactivity.ts`) registers one persist effect per instance; a
`set` or `deleteProperty` trap of the `reactive` proxy runs the effects.
The effect body (`part_002` lines 47–51) persists the mirror unless the
instance is disposed or mid-reload. -/

/-- Process-local instance state: the Mirror (`data`), the `disposed`,
`isUpdatingFromFile` and `initialized` flags, and the resolved
`cleanup` option. -/
structure Ctx where
  data : Obj
  disposed : Bool
  isUpdatingFromFile : Bool
  initDone : Bool
  cleanup : Bool

/-- An instance together with the document file it is bound to. -/
structure World where
  ctx : Ctx
  file : FileState

/-- Run the registered persist effect once (`part_002` lines 47–51): when
the instance is neither disposed nor mid-reload, `saveFile` persists the
Mirror (modelled as the completed write of the serialized Mirror).  Returns
the world and the number of persists performed (`0` or `1`). -/
def fireEffect (w : World) : World × Nat :=
  if !w.ctx.disposed && !w.ctx.isUpdatingFromFile then
    (⟨w.ctx, .content w.ctx.data⟩, 1)
  else
    (w, 0)

/-- A top-level `set` through the `reactive` proxy (`reactivity.ts`
lines 11–15): apply the write, then run the effects. -/
def setTop (w : World) (k : String) (v : JVal) : World × Nat :=
  fireEffect ⟨{ w.ctx with data := objSet w.ctx.data k v }, w.file⟩

/-- A top-level `delete` through the `reactive` proxy (`reactivity.ts`
lines 16–20): apply the deletion, then run the effects. -/
def delTop (w : World) (k : String) : World × Nat :=
  fireEffect ⟨{ w.ctx with data := objDel w.ctx.data k }, w.file⟩

/-- Mutation of a nested object reached through `value`
(e.g. `ctx.value.k.field = v`): the proxy of `reactive` has no `get` trap,
so the nested object is the raw target and the assignment triggers no
`set` trap.  Only the stored data changes. -/
def setNestedField (o : Obj) (k field : String) (v : JVal) : Obj :=
  match objGet o k with
  | some (JVal.obj fields) => objSet o k (JVal.obj (objSet fields field v))
  | _ => o

/-- One Mirror mutation performed by `syncFromFile`. -/
inductive Mut where
  | del (k : String)
  | set (k : String) (v : JVal)

/-- Effect of one mutation on the Mirror. -/
def applyMut (o : Obj) : Mut → Obj
  | .del k => objDel o k
  | .set k v => objSet o k v

/-- Apply a sequence of Mirror mutations, running the registered effect
after each one, exactly as the `reactive` proxy traps do.  Returns the
final world, the number of persists performed, and the value of the
`isUpdatingFromFile` flag observed at each mutation. -/
def runMuts (w : World) : List Mut → World × Nat × List Bool
  | [] => (w, 0, [])
  | m :: ms =>
    let w1 : World := ⟨{ w.ctx with data := applyMut w.ctx.data m }, w.file⟩
    let fe := fireEffect w1
    let rest := runMuts fe.1 ms
    (rest.1, fe.2 + rest.2.1, w1.ctx.isUpdatingFromFile :: rest.2.2)

/-- The Mirror mutations one reload performs, in order: delete every key
of the Mirror (over the `Object.keys` snapshot), then assign every
property of the loaded file content. -/
def reloadMuts (w : World) : List Mut :=
  (objKeys w.ctx.data).map Mut.del
    ++ (loadFile w.file).map (fun p => Mut.set p.1 p.2)

/-- The portion of the reload mutations actually performed: all of them in
a normal run, only the first `n` when the body throws after `n`
mutations. -/
def reloadPlan (w : World) (failAfter : Option Nat) : List Mut :=
  match failAfter with
  | none => reloadMuts w
  | some n => (reloadMuts w).take n

/-- `ReactiveFileContext.syncFromFile` (`part_002` lines 161–181): bail out
when disposed or already reloading; otherwise raise `isUpdatingFromFile`,
load the file (`loadFile` never throws — a malformed file loads as `{}`),
delete every key of the Mirror, assign the loaded content, and clear the
flag in the `finally` block.  `failAfter = some n` models the reload body
throwing after `n` mutations (the `catch` warns and the `finally` still
clears the flag); `failAfter = none` is the normal run.  Returns the final
world, the number of persists the reload triggered, and the trace of flag
values observed at each mutation. -/
def syncFromFile (w : World) (failAfter : Option Nat) : World × Nat × List Bool :=
  if w.ctx.disposed || w.ctx.isUpdatingFromFile then
    (w, 0, [])
  else
    let w1 : World := ⟨{ w.ctx with isUpdatingFromFile := true }, w.file⟩
    let r := runMuts w1 (reloadPlan w1 failAfter)
    (⟨{ r.1.ctx with isUpdatingFromFile := false }, r.1.file ⟩, r.2.1, r.2.2)

/-- The `ReactiveFileContext` constructor (`part_002` lines 21–54):
ensure the file exists, load it (`loadFile` tolerates missing, empty and
corrupt files, so construction never throws on file content), seed the
Mirror as `{...initialData, ...existingData}` (loaded content wins per
key), set `initialized` when either part is nonempty, and register the
persist effect — `effect` invokes its body once at registration, which
performs the initial persist.  Returns the world and the number of
persists run during construction. -/
def constructCtx (initial : Obj) (file0 : FileState) (cleanup : Bool) :
    World × Nat :=
  let f1 := ensureFile file0
  let existing := loadFile f1
  let data := objAssign (objAssign [] initial) existing
  let initDone := !existing.isEmpty || !initial.isEmpty
  fireEffect ⟨⟨data, false, false, initDone, cleanup⟩, f1⟩

/-- `ReactiveFileContext.dispose` (`part_002` lines 95–102): set
`disposed`, detach the watcher, and when the instance owns cleanup remove
the document file (and the lock marker). -/
def disposeW (w : World) : World :=
  let c := { w.ctx with disposed := true }
  if c.cleanup then ⟨c, .missing⟩ else ⟨c, w.file⟩

/-- What one polling iteration of `ready` observes (`part_002`
lines 68–83): the parsed object when the file exists, parses, is non-null
and has at least one key; otherwise nothing (absent file, parse error, or
empty object — all lead to the next retry). -/
def pollView : FileState → Option Obj
  | .content o => if o.isEmpty then none else some o
  | _ => none

/-- The polling loop of `ReactiveFileContext.ready` (`part_002`
lines 60–88): at most `fuel` polls of the file (observation `i` is the
file state at the `i`-th poll); nonempty content is merged into the Mirror
(`Object.assign`) and the instance marked initialized; an exhausted bound
marks the instance initialized anyway. -/
def readyGo (obs : Nat → FileState) : Nat → Nat → Ctx → Ctx
  | 0, _, c => { c with initDone := true }
  | fuel + 1, i, c =>
    match pollView (obs i) with
    | some o => { c with data := objAssign c.data o, initDone := true }
    | none => readyGo obs fuel (i + 1) c

/-- `ReactiveFileContext.ready`: resolve immediately when already
initialized, otherwise poll up to 10 times (50 ms apart in the source). -/
def ready (obs : Nat → FileState) (c : Ctx) : Ctx :=
  if c.initDone then c else readyGo obs 10 0 c

/-- Outcome of one persist attempt: the resulting file, whether the lock
is still held afterwards, whether a recoverable warning was reported, and
whether an exception escaped. -/
structure SaveResult where
  file : FileState
  lockHeldAfter : Bool
  warned : Bool
  threw : Bool

/-- `ReactiveFileContext.performSave` (`part_002` lines 137–151): acquire
the file lock; on failure warn and return without touching the file; on
success ensure the file and overwrite it with the serialized Mirror inside
`try`, releasing the lock in the `finally` block — also when the write
throws, in which case the exception propagates to the caller.  `lockOk`
is the outcome of `FileLock.acquire`, `writeOk` whether the write
succeeds. -/
def performSave (lockOk writeOk : Bool) (data : Obj) (file : FileState) :
    SaveResult :=
  if !lockOk then
    ⟨file, false, true, false⟩
  else if writeOk then
    ⟨.content data, false, false, false⟩
  else
    ⟨ensureFile file, false, false, true⟩

/-- `ReactiveFileContext.performSyncSave` (`part_002` lines 128–135):
write the serialized Mirror synchronously with `writeJSONSync`, with no
lock interaction at all — the `FileLock` is neither acquired nor
released; a write error is caught and reported as a warning. -/
def performSyncSave (writeOk : Bool) (data : Obj) (file : FileState) :
    SaveResult :=
  if writeOk then
    ⟨.content data, false, false, false⟩
  else
    ⟨file, false, true, false⟩

/-- `ReactiveFileContext.saveFile` (`part_002` lines 117–126): when
`process.env.NODE_ENV === 'test'` (`isTestEnv`) it calls
`performSyncSave`, which writes the document without acquiring or
releasing the lock; otherwise it runs `performSave` and turns any escaped
exception into a logged warning via `.catch`. -/
def saveFile (isTestEnv lockOk writeOk : Bool) (data : Obj)
    (file : FileState) : SaveResult :=
  if isTestEnv then
    performSyncSave writeOk data file
  else
    let r := performSave lockOk writeOk data file
    ⟨r.file, r.lockHeldAfter, r.warned || r.threw, false⟩

/-- An event arriving at a live instance: a top-level property set or
delete on `value`, a mutation of a nested object reached through `value`,
or a file-change notification from the watcher. -/
inductive COp where
  | setKey (k : String) (v : JVal)
  | delKey (k : String)
  | nestedSet (k field : String) (v : JVal)
  | notify

/-- Dispatch one event to the instance; returns the new world and the
number of persists performed. -/
def stepOp (w : World) : COp → World × Nat
  | .setKey k v => setTop w k v
  | .delKey k => delTop w k
  | .nestedSet k f v => (⟨{ w.ctx with data := setNestedField w.ctx.data k f v }, w.file⟩, 0)
  | .notify =>
    let r := syncFromFile w none
    (r.1, r.2.1)

/-- Run a sequence of events; returns the final world and the total number
of persists performed. -/
def runOps (w : World) : List COp → World × Nat
  | [] => (w, 0)
  | op :: ops =>
    let s := stepOp w op
    let rest := runOps s.1 ops
    (rest.1, s.2 + rest.2)

/-! ## Lemmas and theorems -/

theorem markerAt_succ (s : Option Nat) (es : List LockEvent) (n : Nat) :
    markerAt s es (n + 1) =
      (es.get? n).elim (markerAt s es n) (markerStep (markerAt s es n)) := by
  unfold markerAt markerRun
  rw [List.take_succ, List.foldl_append]
  simp only [List.get?_eq_getElem?]
  cases h : es[n]? <;> simp [h, Option.toList]

/-- If the marker is present before index `n` and no event in
`[n, n + m)` is an unlink, the marker is still present before `n + m`. -/
theorem marker_stays_present (s : Option Nat) (es : List LockEvent) :
    ∀ (m n : Nat), (markerAt s es n).isSome →
      (∀ k, n ≤ k → k < n + m → ∀ q, es.get? k ≠ some (.unlink q)) →
      (markerAt s es (n + m)).isSome := by
  intro m
  induction m with
  | zero => intro n h _; exact h
  | succ m ih =>
    intro n h hno
    have hsome : (markerAt s es (n + m)).isSome := by
      refine ih n h ?_
      intro k hk hk' q
      exact hno k hk (Nat.lt_succ_of_lt hk') q
    have : n + (m + 1) = (n + m) + 1 := by omega
    rw [this, markerAt_succ]
    cases hget : es.get? (n + m) with
    | none => simpa using hsome
    | some e =>
      cases e with
      | tryCreate p =>
        simp only [Option.elim]
        cases hm : markerAt s es (n + m) with
        | none => rw [hm] at hsome; simp at hsome
        | some q => simp [markerStep]
      | unlink q =>
        exact absurd hget (hno (n + m) (Nat.le_add_right n m) (by omega) q)

theorem objGet_nil (k : String) : objGet [] k = none := rfl

theorem objGet_cons (a : String) (b : JVal) (t : Obj) (k : String) :
    objGet ((a, b) :: t) k = if a = k then some b else objGet t k := by
  unfold objGet
  by_cases h : a = k
  · subst h; simp [List.find?_cons]
  · have hb : (a == k) = false := by simpa using h
    simp [List.find?_cons, hb, h]

theorem objSet_cons_ne (a : String) (b : JVal) (t : Obj) (k : String)
    (v : JVal) (h : a ≠ k) : objSet ((a, b) :: t) k v = (a, b) :: objSet t k v := by
  have hb : (a == k) = false := by simpa using h
  unfold objSet
  cases hany : t.any (fun p => p.1 == k) <;> simp [List.any_cons, hb, hany, h]

theorem objSet_cons_eq (a : String) (b : JVal) (t : Obj) (k : String)
    (v : JVal) (h : a = k) :
    objSet ((a, b) :: t) k v =
      (k, v) :: t.map (fun q => if q.1 = k then (k, v) else q) := by
  subst h
  unfold objSet
  simp [List.any_cons]

theorem objGet_overwrite_ne (t : Obj) (k k' : String) (v : JVal)
    (h : k' ≠ k) :
    objGet (t.map (fun q => if q.1 = k then (k, v) else q)) k' = objGet t k' := by
  induction t with
  | nil => rfl
  | cons p t ih =>
    obtain ⟨a, b⟩ := p
    by_cases hak : a = k
    · subst hak
      simp [objGet_cons, Ne.symm h, ih]
    · simp only [List.map_cons, if_neg hak]
      by_cases hak' : a = k' <;> simp [objGet_cons, hak', ih]

theorem objGet_objSet (o : Obj) (k : String) (v : JVal) (k' : String) :
    objGet (objSet o k v) k' = if k' = k then some v else objGet o k' := by
  induction o with
  | nil =>
    unfold objSet
    by_cases h : k' = k
    · subst h; simp [objGet_cons]
    · simp [objGet_cons, h, Ne.symm h]
  | cons p t ih =>
    obtain ⟨a, b⟩ := p
    by_cases hak : a = k
    · rw [objSet_cons_eq a b t k v hak]
      subst hak
      by_cases h : k' = a
      · subst h; simp [objGet_cons]
      · simp [objGet_cons, Ne.symm h, h, objGet_overwrite_ne t a k' v h]
    · rw [objSet_cons_ne a b t k v hak]
      by_cases hak' : a = k'
      · subst hak'
        simp [objGet_cons, hak]
      · simp [objGet_cons, hak', ih, Ne.symm hak']

theorem objGet_not_mem (o : Obj) (k : String) (h : k ∉ o.map Prod.fst) :
    objGet o k = none := by
  induction o with
  | nil => rfl
  | cons p t ih =>
    obtain ⟨a, b⟩ := p
    simp only [List.map_cons, List.mem_cons] at h
    push_neg at h
    simp [objGet_cons, Ne.symm h.1, ih h.2]

theorem objGet_objAssign (b : Obj) : ∀ (a : Obj), nodupKeys b →
    ∀ k, objGet (objAssign a b) k = Option.or (objGet b k) (objGet a k) := by
  induction b with
  | nil => intro a _ k; simp [objAssign, objGet_nil]
  | cons p t ih =>
    intro a hnd k
    obtain ⟨kb, vb⟩ := p
    have hnd' : nodupKeys t := (List.nodup_cons.mp hnd).2
    have hkb : kb ∉ t.map Prod.fst := by
      have := (List.nodup_cons.mp hnd).1
      simpa [objKeys] using this
    have hstep : objAssign a ((kb, vb) :: t) = objAssign (objSet a kb vb) t := rfl
    rw [hstep, ih (objSet a kb vb) hnd' k]
    by_cases hk : k = kb
    · subst hk
      have ht : objGet t k = none := objGet_not_mem t k hkb
      simp [ht, objGet_cons, objGet_objSet]
    · simp [objGet_cons, Ne.symm hk, objGet_objSet, hk]

theorem foldl_objDel_all : ∀ (l : List String) (o : Obj),
    (∀ p ∈ o, p.1 ∈ l) → l.foldl objDel o = [] := by
  intro l
  induction l with
  | nil =>
    intro o h
    cases o with
    | nil => rfl
    | cons p t => exact absurd (h p (by simp)) (by simp)
  | cons k l ih =>
    intro o h
    rw [List.foldl_cons]
    refine ih (objDel o k) ?_
    intro p hp
    have hmem := List.mem_filter.mp hp
    have hl := h p hmem.1
    have hne : p.1 ≠ k := by simpa using hmem.2
    rcases List.mem_cons.mp hl with h1 | h1
    · exact absurd h1 hne
    · exact h1

theorem fireEffect_suppressed (w : World) (h : w.ctx.isUpdatingFromFile = true) :
    fireEffect w = (w, 0) := by
  unfold fireEffect
  rw [h]
  simp

theorem runMuts_suppressed : ∀ (ms : List Mut) (w : World),
    w.ctx.isUpdatingFromFile = true →
    runMuts w ms =
      (⟨{ w.ctx with data := ms.foldl applyMut w.ctx.data }, w.file⟩, 0,
        List.replicate ms.length true) := by
  intro ms
  induction ms with
  | nil => intro w _; rfl
  | cons m ms ih =>
    intro w h
    simp only [runMuts]
    rw [fireEffect_suppressed ⟨{ w.ctx with data := applyMut w.ctx.data m }, w.file⟩ h]
    rw [ih ⟨{ w.ctx with data := applyMut w.ctx.data m }, w.file⟩ h]
    simp [List.replicate_succ, h]

theorem syncFromFile_run (w : World) (failAfter : Option Nat)
    (hd : w.ctx.disposed = false) (hu : w.ctx.isUpdatingFromFile = false) :
    syncFromFile w failAfter =
      (⟨{ w.ctx with
            data := (reloadPlan w failAfter).foldl applyMut w.ctx.data,
            isUpdatingFromFile := false }, w.file⟩, 0,
        List.replicate (reloadPlan w failAfter).length true) := by
  have unf : syncFromFile w failAfter =
      (⟨{ (runMuts ⟨{ w.ctx with isUpdatingFromFile := true }, w.file⟩
              (reloadPlan w failAfter)).1.ctx with isUpdatingFromFile := false },
          (runMuts ⟨{ w.ctx with isUpdatingFromFile := true }, w.file⟩
              (reloadPlan w failAfter)).1.file⟩,
        (runMuts ⟨{ w.ctx with isUpdatingFromFile := true }, w.file⟩
            (reloadPlan w failAfter)).2.1,
        (runMuts ⟨{ w.ctx with isUpdatingFromFile := true }, w.file⟩
            (reloadPlan w failAfter)).2.2) := by
    unfold syncFromFile
    rw [if_neg (by simp [hd, hu])]
    rfl
  rw [unf, runMuts_suppressed (reloadPlan w failAfter)
    ⟨{ w.ctx with isUpdatingFromFile := true }, w.file⟩ rfl]

/-! ### Claim theorems for the lock -/

/-- C1: among any number of contenders racing on the same lock path, at
most one exclusive create succeeds per marker lifetime — any two
successful creates are separated by an unlink of the marker; immediately
after the winner's release the next exclusive create succeeds; and a
contender whose timeout has not yet elapsed succeeds on its next `acquire`
iteration once the marker is free. -/
theorem lock_mutual_exclusion :
    (∀ (s : Option Nat) (es : List LockEvent) (i j : Nat), i < j →
      createSucceedsAt s es i → createSucceedsAt s es j →
      ∃ k, i < k ∧ k < j ∧ ∃ q, es.get? k = some (.unlink q)) ∧
    (∀ (s : Option Nat) (es : List LockEvent) (r p q : Nat),
      es.get? r = some (.unlink q) → es.get? (r + 1) = some (.tryCreate p) →
      createSucceedsAt s es (r + 1)) ∧
    (∀ timeout start now fuel, now - start < timeout →
      acquireGo timeout start (fuel + 1) now none 0 = ⟨true, some now, 1, now⟩) := by
  refine ⟨?_, ?_, ?_⟩
  · rintro s es i j hij ⟨⟨pi, hgi⟩, hmi⟩ ⟨⟨pj, hgj⟩, hmj⟩
    by_contra hno
    push_neg at hno
    have h1 : (markerAt s es (i + 1)).isSome := by
      rw [markerAt_succ, hgi]
      simp [hmi, markerStep]
    have hstay := marker_stays_present s es (j - (i + 1)) (i + 1) h1
      (fun k hk hk' q => hno k (by omega) (by omega) q)
    rw [show i + 1 + (j - (i + 1)) = j from by omega] at hstay
    rw [hmj] at hstay
    simp at hstay
  · intro s es r p q hr hr1
    refine ⟨⟨p, hr1⟩, ?_⟩
    rw [markerAt_succ, hr]
    cases h : markerAt s es r <;> simp [h, markerStep]
  · intro timeout start now fuel h
    unfold acquireGo
    simp [h]

/-- C1 witness: in the concrete 4-event trace of two contenders (both try,
winner 1 succeeds, winner releases, loser retries), the two successful
creates at indices 0 and 3 are separated by an unlink; the loser's retry
right after the release succeeds; and the loser's `acquire` loop with
remaining budget returns success on a free marker. -/
theorem lock_mutual_exclusion_witness :
    (∃ k, 0 < k ∧ k < 3 ∧ ∃ q,
      ([LockEvent.tryCreate 1, .tryCreate 2, .unlink 1, .tryCreate 2].get? k)
        = some (.unlink q)) ∧
    createSucceedsAt none
      [LockEvent.tryCreate 1, .tryCreate 2, .unlink 1, .tryCreate 2] 3 ∧
    acquireGo 5 0 1 3 none 0 = ⟨true, some 3, 1, 3⟩ := by
  refine ⟨?_, ?_, ?_⟩
  · exact lock_mutual_exclusion.1 none
      [LockEvent.tryCreate 1, .tryCreate 2, .unlink 1, .tryCreate 2] 0 3
      (by decide) ⟨⟨1, rfl⟩, rfl⟩ ⟨⟨2, rfl⟩, rfl⟩
  · exact lock_mutual_exclusion.2.1 none
      [LockEvent.tryCreate 1, .tryCreate 2, .unlink 1, .tryCreate 2] 2 2 1 rfl rfl
  · exact lock_mutual_exclusion.2.2 5 0 3 0 (by decide)

/-- C2 counterexample: `acquire` with `timeout = 0` on a free marker
performs zero exclusive-create attempts and returns failure — the
`while (Date.now() - start < timeout)` guard is false before the first
iteration, so the claim's "at least one attempt and success for every
t ≥ 0" fails at t = 0. -/
theorem acquire_zero_timeout_no_attempt :
    (acquireGo 0 0 5 0 none 0).ok = false ∧
    (acquireGo 0 0 5 0 none 0).attempts = 0 :=
  ⟨rfl, rfl⟩

/-- C2 amended: for every strictly positive timeout — including timeouts
smaller than the 10 ms retry interval — `acquire` against a free marker
performs exactly one exclusive-create attempt and returns success without
sleeping; with `timeout = 0` the loop body never runs and `acquire`
returns failure without attempting creation. -/
theorem acquire_free_marker_succeeds (timeout start fuel : Nat)
    (h : 0 < timeout) :
    acquireGo timeout start (fuel + 1) start none 0 =
      ⟨true, some start, 1, start⟩ := by
  unfold acquireGo
  simp [Nat.sub_self, h]

/-- C2 witness: `acquire` with timeout 1 ms (smaller than the 10 ms retry
interval) on a free marker attempts once and succeeds. -/
theorem acquire_free_marker_succeeds_witness :
    0 < 1 ∧ acquireGo 1 7 1 7 none 0 = ⟨true, some 7, 1, 7⟩ :=
  ⟨Nat.one_pos, acquire_free_marker_succeeds 1 7 0 Nat.one_pos⟩

/-- C6: an existing marker whose mtime age exceeds `2 × timeout` is
deleted and creation retried immediately in the same attempt cycle (two
attempts, no time advance), so `acquire` returns success; and when the
marker disappears between the stat and the unlink (or before the stat),
the iteration `continue`s to the next retry instead of failing. -/
theorem stale_marker_reclaimed :
    (∀ timeout start m fuel, 0 < timeout → start - m > 2 * timeout →
      acquireGo timeout start (fuel + 2) start (some m) 0 =
        ⟨true, some start, 2, start⟩) ∧
    (∀ timeout start now m, now - start < timeout → now - m > 2 * timeout →
      acquireIter timeout start now true (.foundVanished m) = .retryNow false) ∧
    (∀ timeout start now, now - start < timeout →
      acquireIter timeout start now true .vanished = .retryNow false) := by
  refine ⟨?_, ?_, ?_⟩
  · intro timeout start m fuel h1 h2
    show acquireGo timeout start (fuel + 1 + 1) start (some m) 0 = _
    simp [acquireGo, Nat.sub_self, h1, h2]
  · intro timeout start now m h1 h2
    unfold acquireIter
    simp [h1, h2]
  · intro timeout start now h1
    unfold acquireIter
    simp [h1]

/-- C6 witness: with timeout 5 and a marker backdated to mtime 1 at
time 20 (age 19 > 10), `acquire` deletes the marker and succeeds on the
immediate retry; both vanished-marker iteration shapes `continue`. -/
theorem stale_marker_reclaimed_witness :
    (0 : Nat) < 5 ∧ 20 - 1 > 2 * 5 ∧
    acquireGo 5 20 2 20 (some 1) 0 = ⟨true, some 20, 2, 20⟩ ∧
    acquireIter 5 20 20 true (.foundVanished 1) = .retryNow false ∧
    acquireIter 5 20 20 true .vanished = .retryNow false := by
  refine ⟨by decide, by decide, ?_, ?_, ?_⟩
  · exact stale_marker_reclaimed.1 5 20 1 0 (by decide) (by decide)
  · exact stale_marker_reclaimed.2.1 5 20 20 1 (by decide) (by decide)
  · exact stale_marker_reclaimed.2.2 5 20 20 (by decide)

/-! ### Claim theorems for the synchronization loop -/

theorem reload_data (w : World) :
    (reloadMuts w).foldl applyMut w.ctx.data = objAssign [] (loadFile w.file) := by
  unfold reloadMuts
  rw [List.foldl_append]
  have hdel : (((objKeys w.ctx.data).map Mut.del).foldl applyMut w.ctx.data
      : Obj) = [] := by
    rw [List.foldl_map]
    exact foldl_objDel_all (objKeys w.ctx.data) w.ctx.data
      (fun p hp => List.mem_map_of_mem Prod.fst hp)
  rw [hdel, List.foldl_map]
  rfl

/-- C3 counterexample: a reload that finds a malformed document file does
not leave the Mirror unchanged — `loadFile` swallows the parse error and
returns the empty document, so `syncFromFile` clears the Mirror: starting
from Mirror `{a: 1}` with a corrupt file, the Mirror afterwards is empty,
not `{a: 1}`. -/
theorem reload_malformed_clears_mirror :
    (syncFromFile ⟨⟨[("a", JVal.prim 1)], false, false, true, true⟩,
        .corrupt⟩ none).1.ctx.data = [] ∧
    ([("a", JVal.prim 1)] : Obj) ≠ [] :=
  ⟨rfl, by simp⟩

/-- C3 amended: on a reload of a non-disposed instance, the Mirror's key
set afterwards equals exactly the loaded file content (keys absent from
the file are removed, not merely overwritten); a missing, empty, or
malformed file loads as the empty document, so the Mirror is cleared to
empty rather than left unchanged (only an exception thrown by the reload
body itself would leave the Mirror mid-state, with a recoverable
warning). -/
theorem reload_replaces_mirror (w : World) (o : Obj)
    (hd : w.ctx.disposed = false) (hu : w.ctx.isUpdatingFromFile = false) :
    (w.file = .content o → nodupKeys o →
      ∀ k, objGet (syncFromFile w none).1.ctx.data k = objGet o k) ∧
    ((w.file = .missing ∨ w.file = .empty ∨ w.file = .corrupt) →
      (syncFromFile w none).1.ctx.data = []) := by
  have hdata : (syncFromFile w none).1.ctx.data =
      objAssign [] (loadFile w.file) := by
    rw [syncFromFile_run w none hd hu]
    show (reloadPlan w none).foldl applyMut w.ctx.data = _
    exact reload_data w
  constructor
  · intro hf hnd k
    have hload : loadFile w.file = o := by rw [hf]; rfl
    rw [hdata, hload, objGet_objAssign o [] hnd k, objGet_nil]
    simp
  · intro hf
    have hload : loadFile w.file = [] := by
      rcases hf with h | h | h <;> rw [h] <;> rfl
    rw [hdata, hload]
    rfl

/-- C3 witness: reloading from a file containing `{b: 2}` over a Mirror
containing `{a: 1}` yields a Mirror whose `b` is the file's value and
whose `a` is gone. -/
theorem reload_replaces_mirror_witness :
    objGet (syncFromFile ⟨⟨[("a", JVal.prim 1)], false, false, true, true⟩,
        .content [("b", JVal.prim 2)]⟩ none).1.ctx.data "b"
      = objGet [("b", JVal.prim 2)] "b" ∧
    objGet (syncFromFile ⟨⟨[("a", JVal.prim 1)], false, false, true, true⟩,
        .content [("b", JVal.prim 2)]⟩ none).1.ctx.data "a"
      = objGet [("b", JVal.prim 2)] "a" :=
  ⟨(reload_replaces_mirror _ [("b", JVal.prim 2)] rfl rfl).1 rfl
      (by simp [nodupKeys]) "b",
   (reload_replaces_mirror _ [("b", JVal.prim 2)] rfl rfl).1 rfl
      (by simp [nodupKeys]) "a"⟩

/-- C4: on every reload of a non-disposed, non-reloading instance — for
every possible throw point of the reload body — the `isUpdatingFromFile`
flag is observed raised at every Mirror mutation the reload performs, the
reload triggers zero persists (no echo back into a file write), the flag
is cleared again when the reload finishes, and the document file is left
untouched by the reload. -/
theorem reload_reentrancy_guard (w : World) (failAfter : Option Nat)
    (hd : w.ctx.disposed = false) (hu : w.ctx.isUpdatingFromFile = false) :
    (∀ b ∈ (syncFromFile w failAfter).2.2, b = true) ∧
    (syncFromFile w failAfter).2.1 = 0 ∧
    (syncFromFile w failAfter).1.ctx.isUpdatingFromFile = false ∧
    (syncFromFile w failAfter).1.file = w.file := by
  rw [syncFromFile_run w failAfter hd hu]
  refine ⟨?_, rfl, rfl, rfl⟩
  intro b hb
  exact List.eq_of_mem_replicate hb

/-- C4 witness: a reload whose body throws after one mutation still ends
with the flag cleared and zero persists triggered. -/
theorem reload_reentrancy_guard_witness :
    (syncFromFile ⟨⟨[("a", JVal.prim 1)], false, false, true, true⟩,
        .content [("b", JVal.prim 2)]⟩ (some 1)).2.1 = 0 ∧
    (syncFromFile ⟨⟨[("a", JVal.prim 1)], false, false, true, true⟩,
        .content [("b", JVal.prim 2)]⟩ (some 1)).1.ctx.isUpdatingFromFile
      = false :=
  ⟨(reload_reentrancy_guard _ (some 1) rfl rfl).2.1,
   (reload_reentrancy_guard _ (some 1) rfl rfl).2.2.1⟩

/-- C5 counterexample: under `NODE_ENV === 'test'` a persist goes through
`performSyncSave`, which overwrites the document file even though the
Mutual-Exclusion Lock is never acquired — here the lock-acquire outcome is
failure (`lockOk = false`, e.g. another process holds the marker) and the
file is written anyway, so "the lock is acquired before the file is
written" is false for this persist. -/
theorem persist_unlocked_in_test_env :
    (saveFile true false true [("a", JVal.prim 1)] .empty).file
      = .content [("a", JVal.prim 1)] ∧
    (FileState.content [("a", JVal.prim 1)]) ≠ .empty :=
  ⟨rfl, by simp⟩

/-- C5 amended: every persist through the non-test path (`performSave`)
writes the file only under a successfully acquired lock, overwrites it
with the Mirror's serialized state on success, releases the lock
afterwards in every case including a failing write, and on acquisition
failure leaves the file untouched with a recoverable warning and no
exception; in the test environment (`NODE_ENV === 'test'`) `saveFile`
instead writes synchronously via `performSyncSave` without acquiring or
releasing the lock, reporting a write failure as a warning; `saveFile`
never lets an exception escape in either branch. -/
theorem persist_lock_protocol (lockOk writeOk : Bool) (data : Obj)
    (file : FileState) :
    (lockOk = false →
      performSave lockOk writeOk data file = ⟨file, false, true, false⟩) ∧
    (lockOk = true →
      (performSave lockOk writeOk data file).lockHeldAfter = false) ∧
    (lockOk = true → writeOk = true →
      (performSave lockOk writeOk data file).file = .content data) ∧
    ((performSave lockOk writeOk data file).file ≠ file → lockOk = true) ∧
    (saveFile false lockOk writeOk data file).threw = false ∧
    (saveFile false lockOk writeOk data file).file
      = (performSave lockOk writeOk data file).file ∧
    (writeOk = true →
      saveFile true lockOk writeOk data file
        = ⟨.content data, false, false, false⟩) ∧
    (writeOk = false →
      saveFile true lockOk writeOk data file = ⟨file, false, true, false⟩) := by
  cases lockOk <;> cases writeOk <;>
    simp [performSave, performSyncSave, saveFile]

/-- C5 witness: concrete persists — a failed acquisition leaves the file
alone, warns and does not throw; a successful acquisition releases the
lock even when the write fails; a successful write stores the serialized
Mirror; the test-environment persist writes without the lock and turns a
write failure into a warning. -/
theorem persist_lock_protocol_witness :
    performSave false true [] .empty = ⟨.empty, false, true, false⟩ ∧
    (performSave true false [] .empty).lockHeldAfter = false ∧
    (performSave true true [("a", JVal.prim 1)] .empty).file
      = .content [("a", JVal.prim 1)] ∧
    saveFile true false true [("b", JVal.prim 2)] .empty
      = ⟨.content [("b", JVal.prim 2)], false, false, false⟩ ∧
    saveFile true false false [("b", JVal.prim 2)] .empty
      = ⟨.empty, false, true, false⟩ :=
  ⟨(persist_lock_protocol false true [] .empty).1 rfl,
   (persist_lock_protocol true false [] .empty).2.1 rfl,
   (persist_lock_protocol true true [("a", JVal.prim 1)] .empty).2.2.1 rfl rfl,
   (persist_lock_protocol false true [("b", JVal.prim 2)]
     .empty).2.2.2.2.2.2.1 rfl,
   (persist_lock_protocol false false [("b", JVal.prim 2)]
     .empty).2.2.2.2.2.2.2 rfl⟩

/-- C7: construction (a total function of the prior file state — missing,
empty, corrupt, or valid content — so it never throws on file content)
seeds the Mirror as the shallow per-key merge `{...initial, ...loaded}`:
for every key the loaded file content takes precedence, and a missing,
empty, or corrupt file contributes the empty document, leaving exactly the
initial data. -/
theorem construct_seeds_merged_mirror (initial : Obj) (file0 : FileState)
    (cl : Bool) (hnd : nodupKeys initial)
    (hnd2 : nodupKeys (loadFile (ensureFile file0))) :
    (∀ k, objGet (constructCtx initial file0 cl).1.ctx.data k =
      Option.or (objGet (loadFile (ensureFile file0)) k) (objGet initial k)) ∧
    ((file0 = .missing ∨ file0 = .empty ∨ file0 = .corrupt) →
      ∀ k, objGet (constructCtx initial file0 cl).1.ctx.data k
        = objGet initial k) := by
  have hdata : (constructCtx initial file0 cl).1.ctx.data =
      objAssign (objAssign [] initial) (loadFile (ensureFile file0)) := rfl
  constructor
  · intro k
    rw [hdata, objGet_objAssign (loadFile (ensureFile file0)) _ hnd2 k,
      objGet_objAssign initial [] hnd k, objGet_nil]
    simp
  · intro hf k
    have hload : loadFile (ensureFile file0) = [] := by
      rcases hf with h | h | h <;> rw [h] <;> rfl
    rw [hdata, hload]
    show objGet (objAssign [] initial) k = _
    rw [objGet_objAssign initial [] hnd k, objGet_nil]
    simp

/-- C7 witness: constructing over a file containing `{a: 2, b: 3}` with
initial data `{a: 1, c: 4}` yields `a = 2` (loaded wins), `b = 3` and
`c = 4`; over a corrupt file, the Mirror is exactly the initial data. -/
theorem construct_seeds_merged_mirror_witness :
    objGet (constructCtx [("a", JVal.prim 1), ("c", JVal.prim 4)]
        (.content [("a", JVal.prim 2), ("b", JVal.prim 3)]) true).1.ctx.data "a"
      = Option.or (objGet [("a", JVal.prim 2), ("b", JVal.prim 3)] "a")
          (objGet [("a", JVal.prim 1), ("c", JVal.prim 4)] "a") ∧
    objGet (constructCtx [("a", JVal.prim 1), ("c", JVal.prim 4)]
        .corrupt true).1.ctx.data "a"
      = objGet [("a", JVal.prim 1), ("c", JVal.prim 4)] "a" :=
  ⟨(construct_seeds_merged_mirror [("a", JVal.prim 1), ("c", JVal.prim 4)]
      (.content [("a", JVal.prim 2), ("b", JVal.prim 3)]) true
      (by simp [nodupKeys]) (by simp [nodupKeys, loadFile, ensureFile])).1 "a",
   (construct_seeds_merged_mirror [("a", JVal.prim 1), ("c", JVal.prim 4)]
      .corrupt true
      (by simp [nodupKeys]) (by simp [nodupKeys, loadFile, ensureFile])).2
      (by right; right; rfl) "a"⟩

theorem stepOp_disposed (w : World) (op : COp) (h : w.ctx.disposed = true) :
    (stepOp w op).1.ctx.disposed = true ∧ (stepOp w op).1.file = w.file ∧
      (stepOp w op).2 = 0 := by
  cases op with
  | setKey k v => simp [stepOp, setTop, fireEffect, h]
  | delKey k => simp [stepOp, delTop, fireEffect, h]
  | nestedSet k f v => simp [stepOp, h]
  | notify => simp [stepOp, syncFromFile, h]

theorem runOps_disposed : ∀ (ops : List COp) (w : World),
    w.ctx.disposed = true →
    (runOps w ops).1.file = w.file ∧ (runOps w ops).2 = 0 ∧
      (runOps w ops).1.ctx.disposed = true := by
  intro ops
  induction ops with
  | nil => intro w h; exact ⟨rfl, rfl, h⟩
  | cons op ops ih =>
    intro w h
    obtain ⟨h1, h2, h3⟩ := stepOp_disposed w op h
    obtain ⟨i1, i2, i3⟩ := ih (stepOp w op).1 h1
    refine ⟨i1.trans h2, ?_, i3⟩
    show (stepOp w op).2 + (runOps (stepOp w op).1 ops).2 = 0
    rw [h3, i2]

/-- C8: disposal is terminal — after `dispose()` on an instance that owns
cleanup, any sequence of change signals, nested mutations and file-change
notifications performs zero persists and leaves the deleted document file
missing (it is never recreated); moreover a file-change notification on
any disposed instance is a complete no-op. -/
theorem dispose_terminal (w : World) (ops : List COp)
    (hcl : w.ctx.cleanup = true) :
    (runOps (disposeW w) ops).1.file = .missing ∧
    (runOps (disposeW w) ops).2 = 0 ∧
    (∀ w' : World, w'.ctx.disposed = true → stepOp w' .notify = (w', 0)) := by
  have hw : disposeW w = ⟨{ w.ctx with disposed := true }, .missing⟩ := by
    unfold disposeW
    simp [hcl]
  have hd : (disposeW w).ctx.disposed = true := by rw [hw]
  obtain ⟨f, s, _⟩ := runOps_disposed ops (disposeW w) hd
  refine ⟨by rw [f, hw], s, ?_⟩
  intro w' h
  unfold stepOp syncFromFile
  simp [h]

/-- C8 witness: after disposing an instance holding `{a: 1}`, a set, a
nested mutation and a notification leave the file missing and perform no
persist. -/
theorem dispose_terminal_witness :
    (runOps (disposeW ⟨⟨[("a", JVal.prim 1)], false, false, true, true⟩,
        .content [("a", JVal.prim 1)]⟩)
      [.setKey "b" (JVal.prim 2), .nestedSet "a" "x" (JVal.prim 3),
        .notify]).1.file = .missing ∧
    (runOps (disposeW ⟨⟨[("a", JVal.prim 1)], false, false, true, true⟩,
        .content [("a", JVal.prim 1)]⟩)
      [.setKey "b" (JVal.prim 2), .nestedSet "a" "x" (JVal.prim 3),
        .notify]).2 = 0 :=
  ⟨(dispose_terminal _ _ rfl).1, (dispose_terminal _ _ rfl).2.1⟩

theorem readyGo_marks_ready (obs : Nat → FileState) :
    ∀ (fuel i : Nat) (c : Ctx), (readyGo obs fuel i c).initDone = true := by
  intro fuel
  induction fuel with
  | zero => intro i c; rfl
  | succ fuel ih =>
    intro i c
    unfold readyGo
    cases h : pollView (obs i) <;> simp [h, ih]

theorem readyGo_all_none (obs : Nat → FileState) :
    ∀ (fuel i : Nat) (c : Ctx),
      (∀ j, j < fuel → pollView (obs (i + j)) = none) →
      readyGo obs fuel i c = { c with initDone := true } := by
  intro fuel
  induction fuel with
  | zero => intro i c _; rfl
  | succ fuel ih =>
    intro i c h
    have h0 : pollView (obs i) = none := by simpa using h 0 (Nat.succ_pos fuel)
    unfold readyGo
    rw [h0]
    refine ih (i + 1) c ?_
    intro j hj
    have hh := h (j + 1) (Nat.succ_lt_succ hj)
    rw [show i + (j + 1) = i + 1 + j from by omega] at hh
    exact hh

theorem readyGo_finds (obs : Nat → FileState) :
    ∀ (fuel k i : Nat) (c : Ctx) (o : Obj), k < fuel →
      (∀ j, j < k → pollView (obs (i + j)) = none) →
      pollView (obs (i + k)) = some o →
      readyGo obs fuel i c =
        { c with data := objAssign c.data o, initDone := true } := by
  intro fuel
  induction fuel with
  | zero =>
    intro k i c o hk _ _
    exact absurd hk (Nat.not_lt_zero k)
  | succ fuel ih =>
    intro k i c o hk hnone hsome
    unfold readyGo
    cases k with
    | zero =>
      rw [show i + 0 = i from rfl] at hsome
      rw [hsome]
    | succ k =>
      have h0 : pollView (obs i) = none := by simpa using hnone 0 (Nat.succ_pos k)
      rw [h0]
      refine ih k (i + 1) c o (by omega) ?_ ?_
      · intro j hj
        have hh := hnone (j + 1) (Nat.succ_lt_succ hj)
        rwa [show i + (j + 1) = i + 1 + j from by omega] at hh
      · rwa [show i + (k + 1) = i + 1 + k from by omega] at hsome

/-- C9: `ready()` always resolves — on an already-initialized instance it
returns immediately and unchanged; when none of the 10 polls ever
observes nonempty parseable content, it marks the instance initialized
with the Mirror untouched (so a Mirror that was empty stays empty); when
the first poll observes nonempty content, the content is merged into the
Mirror and the instance marked initialized; the instance is always
initialized afterwards, and calling `ready()` again is a no-op, so
repeated calls are safe and idempotent. -/
theorem ready_resolves (obs obs2 : Nat → FileState) (c : Ctx) :
    (c.initDone = true → ready obs c = c) ∧
    (c.initDone = false → (∀ i, i < 10 → pollView (obs i) = none) →
      ready obs c = { c with initDone := true }) ∧
    (c.initDone = false → ∀ k o, k < 10 →
      (∀ j, j < k → pollView (obs j) = none) → pollView (obs k) = some o →
      ready obs c = { c with data := objAssign c.data o, initDone := true }) ∧
    (ready obs c).initDone = true ∧
    ready obs2 (ready obs c) = ready obs c := by
  have hready : ∀ c' : Ctx, (ready obs c').initDone = true := by
    intro c'
    unfold ready
    cases h : c'.initDone with
    | true => simpa using h
    | false =>
      simp only [Bool.false_eq_true, if_false]
      exact readyGo_marks_ready obs 10 0 c'
  refine ⟨?_, ?_, ?_, hready c, ?_⟩
  · intro h
    unfold ready
    rw [h]
    simp
  · intro h hall
    unfold ready
    rw [h]
    simpa using readyGo_all_none obs 10 0 c (fun j hj => by simpa using hall j hj)
  · intro h k o hk hnone hpoll
    unfold ready
    rw [h]
    simp only [Bool.false_eq_true, if_false]
    refine readyGo_finds obs 10 k 0 c o hk ?_ ?_
    · intro j hj
      simpa using hnone j hj
    · simpa using hpoll
  · have h4 : (ready obs c).initDone = true := hready c
    generalize hx : ready obs c = x at h4 ⊢
    unfold ready
    rw [h4]
    simp

/-- C9 witness: on an uninitialized empty instance whose file never gets
content, `ready` resolves with the Mirror still empty and the instance
initialized; on one whose file holds `{k: 9}` at the first poll, `ready`
merges it; an already-initialized instance resolves unchanged. -/
theorem ready_resolves_witness :
    ready (fun _ => FileState.missing) ⟨[], false, false, false, true⟩
      = ⟨[], false, false, true, true⟩ ∧
    ready (fun _ => FileState.content [("k", JVal.prim 9)])
        ⟨[], false, false, false, true⟩
      = ⟨objAssign [] [("k", JVal.prim 9)], false, false, true, true⟩ ∧
    ready (fun _ => FileState.missing) ⟨[], false, false, true, true⟩
      = ⟨[], false, false, true, true⟩ :=
  ⟨(ready_resolves (fun _ => FileState.missing)
      (fun _ => FileState.missing) ⟨[], false, false, false, true⟩).2.1 rfl
      (fun _ _ => rfl),
   (ready_resolves (fun _ => FileState.content [("k", JVal.prim 9)])
      (fun _ => FileState.missing) ⟨[], false, false, false, true⟩).2.2.1 rfl
      0 [("k", JVal.prim 9)] (by decide)
      (fun j hj => absurd hj (Nat.not_lt_zero j)) rfl,
   (ready_resolves (fun _ => FileState.missing)
      (fun _ => FileState.missing) ⟨[], false, false, true, true⟩).1 rfl⟩

theorem runOps_nested_only : ∀ (ops : List COp) (w : World),
    (∀ op ∈ ops, ∃ a b c, op = COp.nestedSet a b c) →
    (runOps w ops).1.file = w.file ∧ (runOps w ops).2 = 0 := by
  intro ops
  induction ops with
  | nil => intro w _; exact ⟨rfl, rfl⟩
  | cons op ops ih =>
    intro w h
    obtain ⟨a, b, c, rfl⟩ := h op (List.mem_cons_self op ops)
    obtain ⟨i1, i2⟩ := ih (stepOp w (.nestedSet a b c)).1
      (fun op' hop' => h op' (List.mem_cons_of_mem _ hop'))
    refine ⟨i1, ?_⟩
    show (stepOp w (COp.nestedSet a b c)).2
        + (runOps (stepOp w (COp.nestedSet a b c)).1 ops).2 = 0
    rw [i2]
    rfl

/-- C10: change detection is shallow — a mutation of a nested object
reached through `value` fires no effect and leaves the document file
byte-for-byte unchanged (and so does any sequence of nested mutations),
while a top-level set on a live instance fires the persist effect exactly
once and rewrites the file with the updated Mirror. -/
theorem nested_mutation_no_persist (w : World) (k field : String) (v : JVal) :
    (∀ ops : List COp, (∀ op ∈ ops, ∃ a b c, op = COp.nestedSet a b c) →
      (runOps w ops).1.file = w.file ∧ (runOps w ops).2 = 0) ∧
    (stepOp w (.nestedSet k field v)).1.file = w.file ∧
    (stepOp w (.nestedSet k field v)).2 = 0 ∧
    (w.ctx.disposed = false → w.ctx.isUpdatingFromFile = false →
      stepOp w (.setKey k v) =
        (⟨{ w.ctx with data := objSet w.ctx.data k v },
           .content (objSet w.ctx.data k v)⟩, 1)) := by
  refine ⟨fun ops h => runOps_nested_only ops w h, rfl, rfl, ?_⟩
  intro hd hu
  unfold stepOp setTop fireEffect
  simp [hd, hu]

/-- C10 witness: on a live instance holding `{a: {x: 1}}`, assigning to
the nested field `a.x` leaves the file unchanged with zero persists,
while the top-level set `a := 2` persists once. -/
theorem nested_mutation_no_persist_witness :
    (stepOp ⟨⟨[("a", JVal.obj [("x", JVal.prim 1)])], false, false, true, true⟩,
        .content [("a", JVal.obj [("x", JVal.prim 1)])]⟩
      (.nestedSet "a" "x" (JVal.prim 5))).1.file
      = .content [("a", JVal.obj [("x", JVal.prim 1)])] ∧
    (stepOp ⟨⟨[("a", JVal.obj [("x", JVal.prim 1)])], false, false, true, true⟩,
        .content [("a", JVal.obj [("x", JVal.prim 1)])]⟩
      (.nestedSet "a" "x" (JVal.prim 5))).2 = 0 ∧
    stepOp ⟨⟨[("a", JVal.obj [("x", JVal.prim 1)])], false, false, true, true⟩,
        .content [("a", JVal.obj [("x", JVal.prim 1)])]⟩
      (.setKey "a" (JVal.prim 2)) =
      (⟨{ (⟨[("a", JVal.obj [("x", JVal.prim 1)])], false, false, true, true⟩ : Ctx)
            with data := objSet [("a", JVal.obj [("x", JVal.prim 1)])] "a" (JVal.prim 2) },
         .content (objSet [("a", JVal.obj [("x", JVal.prim 1)])] "a" (JVal.prim 2))⟩, 1) :=
  ⟨(nested_mutation_no_persist _ "a" "x" (JVal.prim 5)).2.1,
   (nested_mutation_no_persist _ "a" "x" (JVal.prim 5)).2.2.1,
   (nested_mutation_no_persist _ "a" "x" (JVal.prim 2)).2.2.2 rfl rfl⟩

end FsCtx
